import Mathlib

/-!
Verification of the mongodhara frontend data-access core against its
specification.  The definitions below are shallow embeddings of the
TypeScript source (frontend api transport, notification store, error
overlay store, and the document/collection list views); theorems settle
the frozen claims C1..C10.
-/

namespace Mongodhara

/-! ## Path encoding (`url` in api.ts)

The transport encodes the request path with `btoa` followed by the
URL-safe replacements `+ → -`, `/ → _` and stripping of `=` padding,
after removing one leading `/`.  `btoa` consumes a JS string of 8-bit
code units, so a path is modelled as a `List Nat` of byte values
(< 256). -/

/-- Mirrors `path.startsWith("/") ? path.slice(1) : path` ('/' is byte 47). -/
def stripLeadingSlash : List Nat → List Nat
  | 47 :: rest => rest
  | p => p

/-- The base64 alphabet after the URL-safe replacements performed by `url`:
index 62 is `-` (replacing `+`) and index 63 is `_` (replacing `/`). -/
def b64Alphabet : List Char :=
  "ABCDEFGHIJKLMNOPQRSTUVWXYZabcdefghijklmnopqrstuvwxyz0123456789-_".data

def b64Char (n : Nat) : Char := b64Alphabet.getD n 'A'

def b64Index (c : Char) : Nat := b64Alphabet.indexOf c

/-- Byte stream to base64 sextet values: each 3-byte group yields 4 sextets;
a trailing group of 1 or 2 bytes yields 2 or 3 sextets (the `=` padding
that `btoa` would add is removed by `url`, so it never appears here). -/
def bytesToSextets : List Nat → List Nat
  | [] => []
  | [a] => [a / 4, a % 4 * 16]
  | [a, b] => [a / 4, a % 4 * 16 + b / 16, b % 16 * 4]
  | a :: b :: c :: rest =>
    a / 4 :: (a % 4 * 16 + b / 16) :: (b % 16 * 4 + c / 64) :: c % 64 ::
      bytesToSextets rest

/-- Standard base64 decoding of a padding-free sextet stream back to bytes
(the inverse step; the repository itself only contains the encoder). -/
def sextetsToBytes : List Nat → List Nat
  | [] => []
  | [_] => []
  | [x, y] => [x * 4 + y / 16]
  | [x, y, z] => [x * 4 + y / 16, y % 16 * 16 + z / 4]
  | x :: y :: z :: w :: rest =>
    (x * 4 + y / 16) :: (y % 16 * 16 + z / 4) :: (z % 4 * 64 + w) ::
      sextetsToBytes rest

/-- The path transform of `url` in api.ts: strip one leading slash, then
base64url-encode.  (The `API_BASE + "/"` prefix that `url` prepends is
constant and not part of the encoding.) -/
def encodePath (p : List Nat) : List Char :=
  (bytesToSextets (stripLeadingSlash p)).map b64Char

/-- Modelled from the spec: the reversible scheme's decoder (standard
base64url decoding); the repository only ships the encoder. -/
def decodePath (s : List Char) : List Nat :=
  sextetsToBytes (s.map b64Index)

theorem sextetsToBytes_bytesToSextets :
    ∀ l : List Nat, (∀ b ∈ l, b < 256) →
      sextetsToBytes (bytesToSextets l) = l := by
  intro l
  induction l using bytesToSextets.induct with
  | case1 => intro _; rfl
  | case2 a =>
    intro h
    have ha : a < 256 := h a (by simp)
    simp only [bytesToSextets, sextetsToBytes, List.cons.injEq, and_true]
    omega
  | case3 a b =>
    intro h
    have ha : a < 256 := h a (by simp)
    have hb : b < 256 := h b (by simp)
    simp only [bytesToSextets, sextetsToBytes, List.cons.injEq, and_true]
    exact ⟨by omega, by omega⟩
  | case4 a b c rest ih =>
    intro h
    have ha : a < 256 := h a (by simp)
    have hb : b < 256 := h b (by simp)
    have hc : c < 256 := h c (by simp)
    have hrest : ∀ x ∈ rest, x < 256 := by
      intro x hx; exact h x (by simp [hx])
    simp only [bytesToSextets, sextetsToBytes, List.cons.injEq]
    refine ⟨by omega, by omega, by omega, ih hrest⟩

theorem bytesToSextets_lt :
    ∀ l : List Nat, (∀ b ∈ l, b < 256) →
      ∀ x ∈ bytesToSextets l, x < 64 := by
  intro l
  induction l using bytesToSextets.induct with
  | case1 => intro _ x hx; simp [bytesToSextets] at hx
  | case2 a =>
    intro h x hx
    have ha : a < 256 := h a (by simp)
    simp [bytesToSextets] at hx
    rcases hx with hx | hx <;> omega
  | case3 a b =>
    intro h x hx
    have ha : a < 256 := h a (by simp)
    have hb : b < 256 := h b (by simp)
    simp [bytesToSextets] at hx
    rcases hx with hx | hx | hx <;> omega
  | case4 a b c rest ih =>
    intro h x hx
    have ha : a < 256 := h a (by simp)
    have hb : b < 256 := h b (by simp)
    have hc : c < 256 := h c (by simp)
    have hrest : ∀ y ∈ rest, y < 256 := by
      intro y hy; exact h y (by simp [hy])
    simp [bytesToSextets] at hx
    rcases hx with hx | hx | hx | hx | hx
    · omega
    · omega
    · omega
    · omega
    · exact ih hrest x hx

theorem b64Index_b64Char_fin :
    ∀ i : Fin 64, b64Index (b64Char i.val) = i.val := by decide

theorem b64Index_b64Char {n : Nat} (h : n < 64) :
    b64Index (b64Char n) = n :=
  b64Index_b64Char_fin ⟨n, h⟩

theorem map_b64_roundtrip :
    ∀ l : List Nat, (∀ x ∈ l, x < 64) →
      (l.map b64Char).map b64Index = l := by
  intro l h
  induction l with
  | nil => rfl
  | cons x xs ih =>
    have hx : x < 64 := h x (by simp)
    have hxs : ∀ y ∈ xs, y < 64 := fun y hy => h y (by simp [hy])
    simp [b64Index_b64Char hx, ih hxs]

/-- C3 (counterexample): the round trip fails on a path with a leading
slash, because `url` strips it before encoding; the byte string "/a"
(47, 97) decodes back to "a" (97), so the transform is not injective on
all resource-path strings. -/
theorem c3_roundtrip_counterexample :
    decodePath (encodePath [47, 97]) = [97] ∧
      encodePath [47, 97] = encodePath [97] ∧ [97] ≠ [47, 97] := by
  decide

/-- C3 (amended): for every resource-path byte string that does not start
with the separator '/' (byte 47) and consists of 8-bit code units (the
domain of `btoa`), decoding the transport's path encoding recovers the
original string unchanged; the encoder strips one leading slash, so
"/p" and "p" encode identically and the transform is injective only on
slash-free-prefix paths. -/
theorem c3_roundtrip_amended (p : List Nat)
    (hbytes : ∀ b ∈ p, b < 256) (hslash : p.head? ≠ some 47) :
    decodePath (encodePath p) = p := by
  have hstrip : stripLeadingSlash p = p := by
    cases p with
    | nil => rfl
    | cons x xs =>
      cases hx : decide (x = 47) with
      | false =>
        have : x ≠ 47 := of_decide_eq_false hx
        cases x with
        | zero => rfl
        | succ n =>
          simp only [stripLeadingSlash]
          split
          · rename_i heq
            exact absurd (by injection heq) (by omega : ¬ (n + 1 = 47))
          · rfl
      | true =>
        exact absurd (by simp [of_decide_eq_true hx]) hslash
  unfold decodePath encodePath
  rw [hstrip, map_b64_roundtrip _ (bytesToSextets_lt p hbytes)]
  exact sextetsToBytes_bytesToSextets p hbytes

/-- C3 witness: the round trip evaluated on the concrete path "db/c"
(bytes 100, 98, 47, 99 — containing an interior reserved separator). -/
theorem c3_roundtrip_amended_witness :
    decodePath (encodePath [100, 98, 47, 99]) = [100, 98, 47, 99] :=
  c3_roundtrip_amended [100, 98, 47, 99] (by decide) (by decide)

/-! ## Error overlay store (error-overlay.ts) -/

inductive ErrKind
  | auth
  | network
  | server
  | unknown
deriving DecidableEq

/-- ErrorOverlayState from error-overlay.ts. -/
structure ErrorOverlayState where
  visible : Bool
  errorType : ErrKind
  statusCode : Option Nat
  message : Option String
deriving DecidableEq

/-- triggerAuthError from error-overlay.ts: sets the overlay store to a
visible auth-classified state carrying the status code; the message falls
back to "Authentication failed" when the argument is absent or falsy
(the empty string). -/
def triggerAuthError (status : Nat) (message : Option String) : ErrorOverlayState :=
  { visible := true
    errorType := ErrKind.auth
    statusCode := some status
    message := some (match message with
      | some s => if s = "" then "Authentication failed" else s
      | none => "Authentication failed") }

/-! ## Transport layer (api.ts) -/

/-- The parsed JSON body of a response, as far as the transport inspects
it: only the `detail` field is read (`data.detail || generic`). -/
structure ErrBody where
  detail : Option String
deriving DecidableEq

/-- An HTTP response as the transport observes it.  `parsed` is the result
of `res.json()`: `none` models a body that is not parseable JSON, in
which case `await res.json()` itself rejects with a parse error. -/
structure HttpResponse where
  status : Nat
  statusText : String
  parsed : Option ErrBody
deriving DecidableEq

/-- Mirrors `res.ok` of the fetch API: status in the range 200-299. -/
def respOk (r : HttpResponse) : Bool :=
  decide (200 ≤ r.status) && decide (r.status ≤ 299)

/-- How a transport call settles. -/
inductive CallOutcome
  | success (data : ErrBody)
  | authError (msg : String)
  | thrownError (msg : String)
  | parseFailure
deriving DecidableEq

/-- The generic failure message template of api.ts. -/
def genericMsg (method path : String) (status : Nat) (statusText : String) : String :=
  method ++ " " ++ path ++ " failed: " ++ toString status ++ " " ++ statusText

/-- JS truthiness on `data.detail`: a present non-empty string wins,
anything else falls back. -/
def detailOr (b : ErrBody) (fallback : String) : String :=
  match b.detail with
  | some d => if d = "" then fallback else d
  | none => fallback

/-- Shared shape of apiGet / apiPost / apiPut / apiDelete / apiUploadFile
in api.ts (they differ only in the method name used in the generic
message): a 401 triggers the overlay and throws before the body is
parsed; otherwise the body is parsed once, then success resolves with it
and failure throws `detail` or the generic message.  The first component
records the overlay store write, if any. -/
def jsonApiCall (method path : String) (res : HttpResponse) :
    Option ErrorOverlayState × CallOutcome :=
  if res.status = 401 then
    (some (triggerAuthError res.status (some ("Authentication failed for " ++ path))),
     CallOutcome.authError ("Auth error: " ++ toString res.status))
  else
    match res.parsed with
    | none => (none, CallOutcome.parseFailure)
    | some data =>
      if respOk res then (none, CallOutcome.success data)
      else
        (none, CallOutcome.thrownError
          (detailOr data (genericMsg method path res.status res.statusText)))

/-- Shared shape of apiDownload / apiDownloadText in api.ts: a 401
triggers the overlay and throws first; a successful response resolves
with the blob/text without JSON-parsing the body; a failed response
parses the body for `detail`. -/
def downloadCall (path : String) (res : HttpResponse) :
    Option ErrorOverlayState × CallOutcome :=
  if res.status = 401 then
    (some (triggerAuthError res.status (some ("Authentication failed for " ++ path))),
     CallOutcome.authError ("Auth error: " ++ toString res.status))
  else if respOk res then (none, CallOutcome.success ⟨none⟩)
  else
    match res.parsed with
    | none => (none, CallOutcome.parseFailure)
    | some data =>
      (none, CallOutcome.thrownError
        (detailOr data (genericMsg "DOWNLOAD" path res.status res.statusText)))

theorem append_ne_empty_left (s t : String) (h : s ≠ "") : s ++ t ≠ "" := by
  intro hc
  apply h
  have hd := congrArg String.data hc
  rw [String.data_append] at hd
  have hs : s.data = [] := (List.append_eq_nil.mp hd).1
  cases s
  simp_all

theorem triggerAuthError_of_ne_empty (status : Nat) (s : String) (h : s ≠ "") :
    triggerAuthError status (some s) =
      { visible := true, errorType := ErrKind.auth,
        statusCode := some status, message := some s } := by
  simp [triggerAuthError, h]

/-- C1: for every transport call (the shared JSON-call shape of
apiGet/apiPost/apiPut/apiDelete/apiUploadFile, and the download shape of
apiDownload/apiDownloadText), a 401 response invokes the overlay trigger
with `visible = true`, category `auth` and the status code, independently
of the response body (no parsing happens first), and the call rejects
with an auth-classified error; for any other status the transport never
writes the overlay store. -/
theorem c1_transport_auth_overlay (method path : String) (res : HttpResponse) :
    (res.status = 401 →
      jsonApiCall method path res =
        (some { visible := true, errorType := ErrKind.auth,
                statusCode := some 401,
                message := some ("Authentication failed for " ++ path) },
         CallOutcome.authError "Auth error: 401") ∧
      downloadCall path res =
        (some { visible := true, errorType := ErrKind.auth,
                statusCode := some 401,
                message := some ("Authentication failed for " ++ path) },
         CallOutcome.authError "Auth error: 401")) ∧
    (res.status ≠ 401 →
      (jsonApiCall method path res).1 = none ∧
      (downloadCall path res).1 = none) := by
  have hmsg : ("Authentication failed for " ++ path) ≠ "" :=
    append_ne_empty_left _ _ (by decide)
  constructor
  · intro h401
    constructor
    · unfold jsonApiCall
      rw [if_pos h401, h401, triggerAuthError_of_ne_empty 401 _ hmsg]
      rfl
    · unfold downloadCall
      rw [if_pos h401, h401, triggerAuthError_of_ne_empty 401 _ hmsg]
      rfl
  · intro hne
    constructor
    · simp only [jsonApiCall, if_neg hne]
      cases res.parsed with
      | none => rfl
      | some data =>
        by_cases hok : respOk res = true
        · simp [hok]
        · simp [hok]
    · simp only [downloadCall, if_neg hne]
      by_cases hok : respOk res = true
      · simp [hok]
      · simp [hok]
        cases res.parsed with
        | none => simp
        | some data => simp

/-- C1 witness: the theorem evaluated at a concrete 401 response and at a
concrete 500 response. -/
theorem c1_transport_auth_overlay_witness :
    (jsonApiCall "GET" "/db" ⟨401, "Unauthorized", some ⟨some "x"⟩⟩ =
      (some { visible := true, errorType := ErrKind.auth,
              statusCode := some 401,
              message := some "Authentication failed for /db" },
       CallOutcome.authError "Auth error: 401")) ∧
    (jsonApiCall "GET" "/db" ⟨500, "Internal Server Error", some ⟨some "x"⟩⟩).1 = none :=
  ⟨((c1_transport_auth_overlay "GET" "/db" ⟨401, "Unauthorized", some ⟨some "x"⟩⟩).1
      rfl).1,
   ((c1_transport_auth_overlay "GET" "/db"
      ⟨500, "Internal Server Error", some ⟨some "x"⟩⟩).2 (by decide)).1⟩

/-- C4 (counterexample): a 500 response whose body is not parseable JSON
does not reject with the generic "<METHOD> <path> failed: ..." message;
`await res.json()` itself rejects first, so the call fails with the JSON
parse error. -/
theorem c4_unparseable_body_counterexample :
    jsonApiCall "GET" "/db/x" ⟨500, "Internal Server Error", none⟩ =
      (none, CallOutcome.parseFailure) ∧
    CallOutcome.parseFailure ≠
      CallOutcome.thrownError
        (genericMsg "GET" "/db/x" 500 "Internal Server Error") := by
  constructor
  · rfl
  · intro h
    cases h

/-- C4 (amended): for every transport-layer call — the shared JSON-call
shape of apiGet/apiPost/apiPut/apiDelete/apiUploadFile and the download
shape of apiDownload/apiDownloadText — receiving a non-2xx, non-401
response: if the body parses to JSON then the call rejects with the
`detail` field when that is a non-empty string and with the generic
"<METHOD> <path> failed: <status> <statusText>" message otherwise (the
download shape uses method name "DOWNLOAD"); if the body is not
parseable JSON the call rejects with the JSON parse failure, not with
the generic message. -/
theorem c4_error_classification_amended (method path : String) (res : HttpResponse)
    (h401 : res.status ≠ 401) (hok : respOk res = false) :
    jsonApiCall method path res =
      (none,
        match res.parsed with
        | some data =>
          CallOutcome.thrownError
            (detailOr data (genericMsg method path res.status res.statusText))
        | none => CallOutcome.parseFailure) ∧
    downloadCall path res =
      (none,
        match res.parsed with
        | some data =>
          CallOutcome.thrownError
            (detailOr data (genericMsg "DOWNLOAD" path res.status res.statusText))
        | none => CallOutcome.parseFailure) := by
  constructor
  · simp only [jsonApiCall, if_neg h401]
    cases res.parsed with
    | none => rfl
    | some data => simp [hok]
  · simp only [downloadCall, if_neg h401, hok]
    cases res.parsed with
    | none => simp
    | some data => simp

/-- C4 witness: the amended classification evaluated at concrete 404
responses carrying a detail message, for both call shapes. -/
theorem c4_error_classification_amended_witness :
    jsonApiCall "DELETE" "/db/y" ⟨404, "Not Found", some ⟨some "doc missing"⟩⟩ =
      (none, CallOutcome.thrownError "doc missing") ∧
    downloadCall "/db/f" ⟨404, "Not Found", some ⟨some "file missing"⟩⟩ =
      (none, CallOutcome.thrownError "file missing") :=
  ⟨(c4_error_classification_amended "DELETE" "/db/y"
      ⟨404, "Not Found", some ⟨some "doc missing"⟩⟩ (by decide) (by decide)).1,
   (c4_error_classification_amended "GET" "/db/f"
      ⟨404, "Not Found", some ⟨some "file missing"⟩⟩ (by decide) (by decide)).2⟩

/-! ## Notification queue (notifications.ts)

The store holds a list of notifications; `addNotification` appends an
entry whose id is `Date.now()` and schedules `removeNotification(id)`
after 5000 ms via `setTimeout`; `removeNotification` filters the list.
`Date.now()` is passed explicitly as `now`. -/

/-- NotificationType from notifications.ts is "success" | "error"; call
sites in the views additionally pass "warning" and "info" literals, so
those are included as values of the message kind. -/
inductive NotificationType
  | success
  | error
  | warning
  | info
deriving DecidableEq

structure Notification where
  id : Nat
  message : String
  type : NotificationType
deriving DecidableEq

/-- addNotification: appends the new entry and returns the scheduled
removal as (id, delay in ms). -/
def addNotification (now : Nat) (message : String) (type : NotificationType)
    (queue : List Notification) : List Notification × (Nat × Nat) :=
  (queue ++ [{ id := now, message := message, type := type }], (now, 5000))

/-- removeNotification: keeps every entry whose id differs. -/
def removeNotification (id : Nat) (queue : List Notification) : List Notification :=
  queue.filter (fun n => n.id != id)

/-- C9 (counterexample): two addNotification calls in the same millisecond
(`Date.now()` returning 7 twice) produce two queue entries with the same
id; the second appended entry's id is not distinct from the entry already
in the queue. -/
theorem c9_duplicate_id_counterexample :
    (addNotification 7 "b" NotificationType.error
        (addNotification 7 "a" NotificationType.success []).1).1 =
      [{ id := 7, message := "a", type := NotificationType.success },
       { id := 7, message := "b", type := NotificationType.error }] ∧
    (7 : Nat) ∈ ((addNotification 7 "a" NotificationType.success []).1.map
      Notification.id) := by
  decide

/-- C9 (amended): addNotification appends a new entry whose id is the
current `Date.now()` timestamp (so the id is distinct from every entry
already in the queue only when no existing entry carries the same
millisecond timestamp); entries are never merged or deduplicated; each
add schedules removal of that id after the fixed 5000 ms delay, which
removes every entry bearing that id; and removeNotification is
idempotent, leaving the queue unchanged when called again or on an
absent id. -/
theorem c9_queue_amended (now : Nat) (message : String)
    (type : NotificationType) (queue : List Notification) :
    (addNotification now message type queue).1 =
      queue ++ [{ id := now, message := message, type := type }] ∧
    (addNotification now message type queue).2 = (now, 5000) ∧
    ((∀ n ∈ queue, n.id ≠ now) →
      ((addNotification now message type queue).1.map Notification.id).Nodup ∨
        ¬ (queue.map Notification.id).Nodup) ∧
    (removeNotification now (addNotification now message type queue).1 =
      removeNotification now queue) ∧
    (∀ id, removeNotification id (removeNotification id queue) =
      removeNotification id queue) ∧
    (∀ id, (∀ n ∈ queue, n.id ≠ id) → removeNotification id queue = queue) := by
  refine ⟨rfl, rfl, ?_, ?_, ?_, ?_⟩
  · intro h
    by_cases hq : (queue.map Notification.id).Nodup
    · left
      simp only [addNotification, List.map_append, List.map_cons, List.map_nil]
      rw [List.nodup_append]
      refine ⟨hq, List.nodup_singleton _, ?_⟩
      intro a ha hb
      simp at hb
      subst hb
      obtain ⟨n, hn, hid⟩ := List.mem_map.mp ha
      exact h n hn hid
    · right
      exact hq
  · unfold removeNotification addNotification
    rw [List.filter_append]
    simp
  · intro id
    unfold removeNotification
    rw [List.filter_filter]
    congr 1
    funext n
    by_cases h : n.id = id <;> simp [h]
  · intro id h
    unfold removeNotification
    apply List.filter_eq_self.mpr
    intro n hn
    simpa using h n hn

/-- C9 witness: the amended queue behavior evaluated at a concrete add
and a removal on an absent id. -/
theorem c9_queue_amended_witness :
    (addNotification 3 "ok" NotificationType.success
        [{ id := 1, message := "x", type := NotificationType.error }]).1 =
      [{ id := 1, message := "x", type := NotificationType.error },
       { id := 3, message := "ok", type := NotificationType.success }] ∧
    removeNotification 9
        [{ id := 1, message := "x", type := NotificationType.error }] =
      [{ id := 1, message := "x", type := NotificationType.error }] :=
  ⟨(c9_queue_amended 3 "ok" NotificationType.success
      [{ id := 1, message := "x", type := NotificationType.error }]).1,
   (c9_queue_amended 3 "ok" NotificationType.success
      [{ id := 1, message := "x", type := NotificationType.error }]).2.2.2.2.2 9
      (by decide)⟩

/-! ## Documents as duck-typed JSON values -/

/-- A JSON value as the views handle it (documents and filter queries are
free-form). -/
inductive Json
  | obj (fields : List (String × Json))
  | arr (items : List Json)
  | str (s : String)
  | num (n : Int)
  | bool (b : Bool)
  | null

/-- Mirrors JS `Object.keys`: own enumerable keys of an object; index
keys for arrays and strings; empty for other primitives. -/
def jsonKeys : Json → List String
  | Json.obj fields => fields.map (fun f => f.1)
  | Json.arr items => (List.range items.length).map toString
  | Json.str s => (List.range s.length).map toString
  | _ => []

/-! ## Display column derivation (`extractAllKeys` in the document view) -/

/-- Lower-casing as used by `key.toLowerCase()` (keys are ASCII). -/
def lowerStr (s : String) : String := String.mk (s.data.map Char.toLower)

/-- Substring search on character lists (structural, so it evaluates). -/
def hasSubCL (needle : List Char) : List Char → Bool
  | [] => needle.isEmpty
  | c :: rest => needle.isPrefixOf (c :: rest) || hasSubCL needle rest

/-- Substring containment, mirroring JS `String.prototype.includes`. -/
def containsSub (needle hay : String) : Bool :=
  hasSubCL needle.data hay.data

/-- Whitespace trimming, mirroring JS `String.prototype.trim`. -/
def trimStr (s : String) : String :=
  String.mk (((s.data.dropWhile Char.isWhitespace).reverse.dropWhile
    Char.isWhitespace).reverse)

/-- Suffix test, mirroring JS `String.prototype.endsWith`. -/
def endsWithStr (s suffix : String) : Bool :=
  suffix.data.isSuffixOf s.data

def keyIsIdLike (k : String) : Bool := containsSub "id" (lowerStr k)

def keyIsNameLike (k : String) : Bool := containsSub "name" (lowerStr k)

/-- One step of building a JS `Set` in insertion order. -/
def insertNew (acc : List String) (k : String) : List String :=
  if k ∈ acc then acc else acc ++ [k]

/-- The `allUniqueKeys` Set of `extractAllKeys`: union of `Object.keys`
over all documents, in insertion order. -/
def setUnion (docs : List Json) : List String :=
  docs.foldl (fun acc d => (jsonKeys d).foldl insertNew acc) []

/-- Alphabetical sort, the model of JS `Array.prototype.sort()` on string
keys (code-unit lexicographic order). -/
def sortStr (l : List String) : List String := List.insertionSort (· ≤ ·) l

/-- extractAllKeys from the document view: `_id` first, then keys whose
lower-cased name contains "id", then of the rest those containing
"name", then all remaining keys, each of the three groups sorted; keys
are collected as a Set over all documents and `_id` is skipped during
categorization and prepended explicitly. -/
def extractAllKeys (docs : List Json) : List String :=
  let rest := (setUnion docs).filter (fun k => k != "_id")
  let idKeys := sortStr (rest.filter keyIsIdLike)
  let nameKeys := sortStr (rest.filter (fun k => !keyIsIdLike k && keyIsNameLike k))
  let otherKeys := sortStr (rest.filter (fun k => !keyIsIdLike k && !keyIsNameLike k))
  "_id" :: (idKeys ++ nameKeys ++ otherKeys)

/-- The display column list as claim C7 words it: `_id` first, then every
other key of the union whose name contains "id" (case-insensitive), then
every remaining key containing "name", then all remaining keys, each
group alphabetical, computed from the union of keys across all returned
documents (here built independently: flatten then deduplicate). -/
def specDisplayColumns (docs : List Json) : List String :=
  let u := ((docs.map jsonKeys).flatten.dedup).filter (fun k => k != "_id")
  "_id" ::
    (sortStr (u.filter keyIsIdLike) ++
     sortStr (u.filter (fun k => !keyIsIdLike k && keyIsNameLike k)) ++
     sortStr (u.filter (fun k => !keyIsIdLike k && !keyIsNameLike k)))

theorem mem_insertNew {acc : List String} {k x : String} :
    x ∈ insertNew acc k ↔ x ∈ acc ∨ x = k := by
  unfold insertNew
  by_cases h : k ∈ acc
  · simp only [if_pos h]
    constructor
    · exact Or.inl
    · rintro (hx | rfl)
      · exact hx
      · exact h
  · simp [if_neg h]

theorem nodup_insertNew {acc : List String} {k : String} (h : acc.Nodup) :
    (insertNew acc k).Nodup := by
  unfold insertNew
  by_cases hk : k ∈ acc
  · simpa [if_pos hk]
  · simp only [if_neg hk]
    rw [List.nodup_append]
    refine ⟨h, List.nodup_singleton _, ?_⟩
    intro a ha hb
    simp only [List.mem_singleton] at hb
    subst hb
    exact hk ha

theorem foldl_insertNew_mem (l : List String) :
    ∀ (acc : List String) (x : String),
      x ∈ l.foldl insertNew acc ↔ x ∈ acc ∨ x ∈ l := by
  induction l with
  | nil => simp
  | cons k ks ih =>
    intro acc x
    simp only [List.foldl_cons, ih, mem_insertNew, List.mem_cons]
    tauto

theorem foldl_insertNew_nodup (l : List String) :
    ∀ acc : List String, acc.Nodup → (l.foldl insertNew acc).Nodup := by
  induction l with
  | nil => intro acc h; exact h
  | cons k ks ih =>
    intro acc h
    exact ih _ (nodup_insertNew h)

theorem setUnion_mem (docs : List Json) (x : String) :
    x ∈ setUnion docs ↔ x ∈ (docs.map jsonKeys).flatten := by
  unfold setUnion
  induction docs generalizing x with
  | nil => simp
  | cons d ds ih =>
    have step : ∀ acc : List String,
        (ds.foldl (fun acc d => (jsonKeys d).foldl insertNew acc) acc) =
        ds.foldl (fun acc d => (jsonKeys d).foldl insertNew acc) acc := fun _ => rfl
    simp only [List.foldl_cons, List.map_cons, List.flatten_cons, List.mem_append]
    constructor
    · intro hx
      -- peel the fold over ds, whose accumulator already holds the keys of d
      have haux : ∀ (rest : List Json) (acc : List String) (y : String),
          y ∈ rest.foldl (fun acc d => (jsonKeys d).foldl insertNew acc) acc ↔
            y ∈ acc ∨ y ∈ (rest.map jsonKeys).flatten := by
        intro rest
        induction rest with
        | nil => simp
        | cons r rs ihr =>
          intro acc y
          simp only [List.foldl_cons, ihr, foldl_insertNew_mem, List.map_cons,
            List.flatten_cons, List.mem_append]
          tauto
      rcases (haux ds _ x).mp hx with hacc | hds
      · rcases (foldl_insertNew_mem _ _ _).mp hacc with h0 | hd
        · simp at h0
        · exact Or.inl hd
      · exact Or.inr hds
    · intro hx
      have haux : ∀ (rest : List Json) (acc : List String) (y : String),
          y ∈ rest.foldl (fun acc d => (jsonKeys d).foldl insertNew acc) acc ↔
            y ∈ acc ∨ y ∈ (rest.map jsonKeys).flatten := by
        intro rest
        induction rest with
        | nil => simp
        | cons r rs ihr =>
          intro acc y
          simp only [List.foldl_cons, ihr, foldl_insertNew_mem, List.map_cons,
            List.flatten_cons, List.mem_append]
          tauto
      apply (haux ds _ x).mpr
      rcases hx with hd | hds
      · exact Or.inl ((foldl_insertNew_mem _ _ _).mpr (Or.inr hd))
      · exact Or.inr hds

theorem setUnion_nodup (docs : List Json) : (setUnion docs).Nodup := by
  unfold setUnion
  have haux : ∀ (rest : List Json) (acc : List String), acc.Nodup →
      (rest.foldl (fun acc d => (jsonKeys d).foldl insertNew acc) acc).Nodup := by
    intro rest
    induction rest with
    | nil => intro acc h; exact h
    | cons r rs ihr =>
      intro acc h
      exact ihr _ (foldl_insertNew_nodup _ _ h)
  exact haux docs [] List.nodup_nil

theorem sortStr_eq_of_perm {l₁ l₂ : List String} (h : List.Perm l₁ l₂) :
    sortStr l₁ = sortStr l₂ := by
  unfold sortStr
  exact List.eq_of_perm_of_sorted
    (((List.perm_insertionSort (· ≤ ·) l₁).trans h).trans
      (List.perm_insertionSort (· ≤ ·) l₂).symm)
    (List.sorted_insertionSort (· ≤ ·) l₁)
    (List.sorted_insertionSort (· ≤ ·) l₂)

/-- C7: the derived display column list equals the specification's
ordering: `_id` first, then the id-containing keys, the name-containing
keys and the remaining keys of the union of keys across all returned
documents, each group alphabetical. -/
theorem c7_display_columns (docs : List Json) :
    extractAllKeys docs = specDisplayColumns docs := by
  unfold extractAllKeys specDisplayColumns
  have hperm :
      List.Perm ((setUnion docs).filter (fun k => k != "_id"))
        (((docs.map jsonKeys).flatten.dedup).filter (fun k => k != "_id")) := by
    apply (List.perm_ext_iff_of_nodup
      ((setUnion_nodup docs).filter _)
      ((docs.map jsonKeys).flatten.nodup_dedup.filter _)).mpr
    intro a
    simp only [List.mem_filter, setUnion_mem, List.mem_dedup]
  simp only []
  congr 1
  rw [sortStr_eq_of_perm (hperm.filter _),
    sortStr_eq_of_perm (hperm.filter _),
    sortStr_eq_of_perm (hperm.filter _)]

/-! ## Document view state machine (the collection/GridFS page) -/

/-- The result page kept in `documentsResponse`. -/
structure PaginatedDocuments where
  docs : List Json
  total : Nat
  page : Nat
  page_size : Nat

/-- The fixed pageSize of the document view. -/
def pageSize : Nat := 12

/-- The document query endpoint's response as the view reads it;
`data = none` models a missing/falsy `response.data` field. -/
structure DocsQueryResponse where
  data : Option (List Json)
  total : Nat
  page : Nat
  page_size : Nat

/-- The request `fetchDocuments` issues: `page` and `page_size` query
parameters, `sort_field`/`sort_order` only when both are set, and the
POST body `{"filter": ...}`. -/
structure DocRequest where
  page : Nat
  page_size : Nat
  sort : Option (String × Int)
  filter : Json

structure DocViewState where
  currentPage : Nat
  queryTerm : String
  sortField : Option String
  sortOrder : Option Int
  documentsResponse : PaginatedDocuments
  error : Bool
  notifs : List (String × NotificationType)
  allKeys : List String

/-- Reactive `totalPages = Math.ceil(documentsResponse.total / pageSize)`. -/
def totalPages (st : DocViewState) : Nat :=
  (st.documentsResponse.total + pageSize - 1) / pageSize

/-- The code run when the `apiPost` promise of `fetchDocuments` settles:
on success the result set is replaced wholesale (or emptied with a
warning when the response shape is unexpected); on rejection the view is
put in the error state with an empty result set (docs = [], total = 0,
page = 1) and an error notification; afterwards `allKeys` is recomputed
from the now-current docs.  There is no generation guard: the assignment
is unconditional whenever a response arrives. -/
def applyDocsArrival (st : DocViewState)
    (outcome : Except String (Option DocsQueryResponse)) : DocViewState :=
  let st2 :=
    match outcome with
    | Except.ok (some r) =>
      match r.data with
      | some docs =>
        { st with documentsResponse :=
            { docs := docs, total := r.total, page := r.page,
              page_size := r.page_size } }
      | none =>
        { st with
            documentsResponse :=
              { docs := [], total := 0, page := 1, page_size := pageSize },
            notifs := st.notifs ++
              [("Unexpected response format from server.", NotificationType.warning)] }
    | Except.ok none =>
      { st with
          documentsResponse :=
            { docs := [], total := 0, page := 1, page_size := pageSize },
          notifs := st.notifs ++
            [("Unexpected response format from server.", NotificationType.warning)] }
    | Except.error msg =>
      { st with
          error := true,
          documentsResponse :=
            { docs := [], total := 0, page := 1, page_size := pageSize },
          notifs := st.notifs ++ [(msg, NotificationType.error)] }
  { st2 with allKeys := extractAllKeys st2.documentsResponse.docs }

/-- The sort query parameters: `sort_field`/`sort_order` are only sent
when both have been set by the user. -/
def docSortParams (st : DocViewState) : Option (String × Int) :=
  match st.sortField, st.sortOrder with
  | some f, some o => some (f, o)
  | _, _ => none

/-- The filter object `fetchDocuments` will send, or `none` when the
query text is non-blank yet fails to parse (submission blocked). -/
def docFilterStep (parse : String → Option Json) (queryTerm : String) :
    Option Json :=
  if trimStr queryTerm = "" then some (Json.obj [])
  else
    match parse queryTerm with
    | none => none
    | some v => some (if (jsonKeys v).length > 0 then v else Json.obj [])

/-- Continuation of `fetchDocuments` after the filter has been built: a
blocked submission (filter `none`) only emits the "Invalid JSON query."
notification and issues no request; otherwise the request is issued and
the settled transport outcome is applied.  Returns the new state and the
request that was issued (`none` when blocked). -/
def fetchDocumentsAfterFilter
    (transport : DocRequest → Except String (Option DocsQueryResponse))
    (st : DocViewState) : Option Json → DocViewState × Option DocRequest
  | none =>
    ({ st with notifs := st.notifs ++
        [("Invalid JSON query.", NotificationType.error)] }, none)
  | some filt =>
    let req : DocRequest :=
      { page := st.currentPage, page_size := pageSize,
        sort := docSortParams st, filter := filt }
    (applyDocsArrival st (transport req), some req)

/-- fetchDocuments: builds the filter from `queryTerm` (`JSON.parse` is
passed in as `parse`), then proceeds as `fetchDocumentsAfterFilter`. -/
def fetchDocumentsModel (parse : String → Option Json)
    (transport : DocRequest → Except String (Option DocsQueryResponse))
    (st : DocViewState) : DocViewState × Option DocRequest :=
  fetchDocumentsAfterFilter transport st (docFilterStep parse st.queryTerm)

/-- The success notification text of `confirmDelete` (collection branch). -/
def deleteSuccessMsg (id : String) : String :=
  "Document with ID \"" ++ id ++ "\" deleted successfully."

/-- confirmDelete: nothing happens without a pending id; on transport
success a success notification naming the id is emitted and `fetchData`
re-runs `fetchDocuments`; on failure only an error notification is
emitted.  `currentPage` is not modified anywhere on this path. -/
def confirmDeleteModel (parse : String → Option Json)
    (deleteTransport : Except String Unit)
    (refetchTransport : DocRequest → Except String (Option DocsQueryResponse))
    (st : DocViewState) (docToDelete : Option String) : DocViewState :=
  match docToDelete with
  | none => st
  | some id =>
    match deleteTransport with
    | Except.ok _ =>
      let st1 := { st with notifs := st.notifs ++
          [(deleteSuccessMsg id, NotificationType.success)] }
      (fetchDocumentsModel parse refetchTransport st1).1
    | Except.error msg =>
      { st with notifs := st.notifs ++ [(msg, NotificationType.error)] }

/-! ## Collections view (CollectionsView.svelte) -/

structure PaginatedCollections where
  collections : List Json
  total : Nat
  page : Nat
  page_size : Nat

/-- The fixed pageSize of the collections view. -/
def colPageSize : Nat := 16

structure ColRequest where
  search : Option String
  page : Nat
  page_size : Nat

structure ColViewState where
  searchTerm : String
  currentPage : Nat
  collectionsResponse : PaginatedCollections
  error : Bool
  notifs : List (String × NotificationType)

/-- The query string `fetchCollections` builds: `search` only when the
term is non-blank, plus `page` and `page_size`. -/
def colRequestOf (st : ColViewState) : ColRequest :=
  { search := if trimStr st.searchTerm = "" then none else some st.searchTerm,
    page := st.currentPage, page_size := colPageSize }

/-- fetchCollections from CollectionsView.svelte: on success the response
replaces the list; on rejection the list is replaced by an empty one
(collections = [], total = 0, page = 1), the error flag is set and an
error notification carrying the message is added. -/
def fetchCollectionsModel
    (transport : ColRequest → Except String PaginatedCollections)
    (st : ColViewState) : ColViewState :=
  match transport (colRequestOf st) with
  | Except.ok r => { st with collectionsResponse := r, error := false }
  | Except.error msg =>
    { st with
        error := true,
        collectionsResponse :=
          { collections := [], total := 0, page := 1, page_size := colPageSize },
        notifs := st.notifs ++ [(msg, NotificationType.error)] }

/-! ## Blob-file inline preview (isFileViewable / handleViewClick) -/

/-- The 30 MB ceiling (`30 * 1024 * 1024` bytes). -/
def maxSizeBytes : Nat := 30 * 1024 * 1024

/-- The allow-list of text-like extensions for inline preview. -/
def viewableExtensions : List String :=
  [".json", ".txt", ".md", ".yml", ".yaml", ".csv", ".xml", ".log",
   ".conf", ".config", ".ini", ".properties"]

/-- A GridFS file document as the preview logic reads it: `filename` and
`length` may be absent. -/
structure FileDoc where
  filename : Option String
  length : Option Nat

/-- JS truthiness of the numeric `doc.length` field. -/
def truthyNat : Option Nat → Bool
  | some n => n != 0
  | none => false

/-- isFileViewable from the document view: requires a GridFS context and a
filename; rejects when `doc.length` is truthy and strictly greater than
the 30 MB ceiling; otherwise checks the lower-cased filename against the
extension allow-list. -/
def isFileViewable (isGridFS : Bool) (doc : FileDoc) : Bool :=
  if !isGridFS || doc.filename.isNone then false
  else if truthyNat doc.length && decide (maxSizeBytes < doc.length.getD 0) then
    false
  else viewableExtensions.any (fun e => endsWithStr (lowerStr (doc.filename.getD "")) e)

/-- handleViewClick guards the body fetch: it returns immediately unless
the view is GridFS and `isFileViewable` holds, so a download is attempted
only for viewable files. -/
def handleViewClickAttempts (isGridFS : Bool) (doc : FileDoc) : Bool :=
  isGridFS && isFileViewable isGridFS doc

/-! ## Claim theorems on the view models -/

theorem applyDocsArrival_currentPage (st : DocViewState)
    (outcome : Except String (Option DocsQueryResponse)) :
    (applyDocsArrival st outcome).currentPage = st.currentPage := by
  unfold applyDocsArrival
  cases outcome with
  | error msg => rfl
  | ok ro =>
    cases ro with
    | none => rfl
    | some r =>
      obtain ⟨d, t, pg, ps⟩ := r
      cases d <;> rfl

/-- A blank document view, the initial state of the page. -/
def initialDocView : DocViewState :=
  { currentPage := 1, queryTerm := "", sortField := none, sortOrder := none,
    documentsResponse := { docs := [], total := 0, page := 1, page_size := pageSize },
    error := false, notifs := [], allKeys := [] }

/-- Response payload of the first-issued fetch in the C2 race trace. -/
def c2RespFirst : Except String (Option DocsQueryResponse) :=
  Except.ok (some { data := some [Json.obj [("_id", Json.str "a")]],
                    total := 1, page := 1, page_size := 12 })

/-- Response payload of the second (last)-issued fetch in the C2 race
trace. -/
def c2RespSecond : Except String (Option DocsQueryResponse) :=
  Except.ok (some { data := some [], total := 2, page := 1, page_size := 12 })

/-- C2: evaluation of the code on the failing trace.  Two fetches are
issued in order (first, then second); the second-issued response arrives
first and the first-issued response arrives last.  Because response
application in `fetchDocuments` is unconditional (no RequestGeneration
guard exists in the source), the finally displayed result set is the one
of the FIRST-issued operation (total = 1), not the last-issued one
(total = 2): a stale response wins, contradicting the claim. -/
theorem c2_stale_response_displayed :
    (applyDocsArrival (applyDocsArrival initialDocView c2RespSecond)
        c2RespFirst).documentsResponse.total = 1 ∧
    (applyDocsArrival initialDocView c2RespSecond).documentsResponse.total = 2 ∧
    (1 : Nat) ≠ 2 := by
  refine ⟨rfl, rfl, by decide⟩

/-- The document view sitting on the last page (page 2) with 13 items
total: page 2 holds the single item about to be deleted. -/
def c5State : DocViewState :=
  { currentPage := 2, queryTerm := "", sortField := none, sortOrder := none,
    documentsResponse :=
      { docs := [Json.obj [("_id", Json.str "x")]], total := 13, page := 2,
        page_size := pageSize },
    error := false, notifs := [], allKeys := ["_id"] }

/-- The state after deleting the only item of the last page and letting
the automatic refetch complete (the server now reports 12 items). -/
def c5After : DocViewState :=
  confirmDeleteModel (fun _ => none) (Except.ok ())
    (fun _ => Except.ok (some { data := some [], total := 12, page := 2,
                                page_size := 12 }))
    c5State (some "x")

/-- C5 (counterexample): deleting the only item of the last page and
refetching leaves `currentPage = 2` although the new last valid page is
`ceil(12/12) = 1`: the page index is NOT clamped and is left pointing
past the end. -/
theorem c5_no_clamp_counterexample :
    c5After.currentPage = 2 ∧ totalPages c5After = 1 ∧
      ¬ (c5After.currentPage ≤ totalPages c5After) := by
  refine ⟨rfl, rfl, by decide⟩

/-- C5 (amended): after a delete, the automatic refetch leaves the view's
current page index exactly as it was — no clamping to
`ceil(totalCount/pageSize)` is performed anywhere on the delete/refetch
path, so the index can be left pointing past the new last page. -/
theorem c5_page_preserved_amended (parse : String → Option Json)
    (deleteTransport : Except String Unit)
    (refetchTransport : DocRequest → Except String (Option DocsQueryResponse))
    (st : DocViewState) (docToDelete : Option String) :
    (confirmDeleteModel parse deleteTransport refetchTransport st
        docToDelete).currentPage = st.currentPage ∧
    (fetchDocumentsModel parse refetchTransport st).1.currentPage =
      st.currentPage := by
  have hfetch : ∀ st' : DocViewState,
      (fetchDocumentsModel parse refetchTransport st').1.currentPage =
        st'.currentPage := by
    intro st'
    unfold fetchDocumentsModel
    cases docFilterStep parse st'.queryTerm with
    | none => rfl
    | some filt => exact applyDocsArrival_currentPage _ _
  constructor
  · rcases docToDelete with _ | id
    · rfl
    · rcases deleteTransport with e | u
      · rfl
      · have h1 := hfetch { st with notifs := st.notifs ++
          [(deleteSuccessMsg id, NotificationType.success)] }
        simpa [confirmDeleteModel] using h1
  · exact hfetch st

/-- C6: in the document view, an empty or all-whitespace filter string
issues the fetch with body `{"filter": {}}` (no filter, not an error),
while a non-empty string that is not valid JSON sends no request at all
and surfaces the "Invalid JSON query." validation notification, leaving
the displayed result set untouched. -/
theorem c6_filter_handling (parse : String → Option Json)
    (transport : DocRequest → Except String (Option DocsQueryResponse))
    (st : DocViewState) :
    (trimStr st.queryTerm = "" →
      (fetchDocumentsModel parse transport st).2 =
        some { page := st.currentPage, page_size := pageSize,
               sort := docSortParams st, filter := Json.obj [] }) ∧
    (trimStr st.queryTerm ≠ "" → parse st.queryTerm = none →
      (fetchDocumentsModel parse transport st).2 = none ∧
      (fetchDocumentsModel parse transport st).1.notifs =
        st.notifs ++ [("Invalid JSON query.", NotificationType.error)] ∧
      (fetchDocumentsModel parse transport st).1.documentsResponse =
        st.documentsResponse) := by
  constructor
  · intro h
    unfold fetchDocumentsModel docFilterStep
    rw [if_pos h]
    rfl
  · intro h hp
    unfold fetchDocumentsModel docFilterStep
    rw [if_neg h, hp]
    exact ⟨rfl, rfl, rfl⟩

/-- C6 witness: the two branches evaluated at a whitespace filter and at
a malformed non-empty filter (with a parser that rejects it). -/
theorem c6_filter_handling_witness :
    (fetchDocumentsModel (fun _ => none) (fun _ => Except.error "down")
        initialDocView).2 =
      some { page := 1, page_size := pageSize, sort := none,
             filter := Json.obj [] } ∧
    (fetchDocumentsModel (fun _ => none) (fun _ => Except.error "down")
        { initialDocView with queryTerm := "\x7bbad" }).2 = none :=
  ⟨(c6_filter_handling (fun _ => none) (fun _ => Except.error "down")
      initialDocView).1 rfl,
   ((c6_filter_handling (fun _ => none) (fun _ => Except.error "down")
      { initialDocView with queryTerm := "\x7bbad" }).2 (by decide) rfl).1⟩

/-- C8 (counterexample): a ".txt" file whose size is exactly the 30 MiB
ceiling (30 * 1024 * 1024 bytes) is offered inline preview although its
byte size is not under the ceiling: the source rejects only sizes
strictly greater than the ceiling, so the claimed "iff ... under the
30 MiB ceiling" fails at the boundary. -/
theorem c8_boundary_counterexample :
    isFileViewable true { filename := some "a.txt",
                          length := some (30 * 1024 * 1024) } = true ∧
    ¬ ((30 * 1024 * 1024 : Nat) < maxSizeBytes) := by
  refine ⟨by decide, by decide⟩

/-- C8 (amended): for a GridFS file document with a filename and a known
byte size, inline preview is offered if and only if the lower-cased
filename ends in one of the allow-listed text-like extensions AND the
byte size is at most (not strictly under) the 30 MiB ceiling; and the
view-click handler attempts a body fetch only for files that pass
`isFileViewable`, so both checks run client-side before any fetch. -/
theorem c8_viewable_amended :
    (∀ (fn : String) (n : Nat),
      isFileViewable true { filename := some fn, length := some n } = true ↔
        (viewableExtensions.any
            (fun e => endsWithStr (lowerStr fn) e) = true ∧ n ≤ maxSizeBytes)) ∧
    (∀ (g : Bool) (d : FileDoc),
      handleViewClickAttempts g d = true → isFileViewable g d = true) := by
  constructor
  · intro fn n
    unfold isFileViewable
    simp only [Bool.not_true, Option.isNone_some, Bool.or_false, if_neg,
      Bool.false_eq_true, not_false_iff, truthyNat, Option.getD_some]
    by_cases hz : n = 0
    · subst hz
      simp [maxSizeBytes]
    · have : (n != 0) = true := by simpa using hz
      simp only [this, Bool.true_and]
      by_cases hlt : maxSizeBytes < n
      · simp [hlt, Nat.not_le_of_lt hlt]
      · simp [hlt, Nat.le_of_not_lt hlt]
  · intro g d h
    unfold handleViewClickAttempts at h
    exact (Bool.and_eq_true_iff.mp h).2

/-- C8 witness: the amended eligibility rule evaluated at a small ".json"
file, and the fetch guard evaluated at a viewable ".md" file. -/
theorem c8_viewable_amended_witness :
    isFileViewable true { filename := some "b.json", length := some 5 } = true ∧
    isFileViewable true { filename := some "c.md", length := some 1 } = true :=
  ⟨(c8_viewable_amended.1 "b.json" 5).mpr (by decide),
   c8_viewable_amended.2 true { filename := some "c.md", length := some 1 }
     (by decide)⟩

/-- C10: a failed listing fetch is not atomic with respect to visible
state.  When the transport call rejects, `fetchDocuments` replaces the
previously displayed result set by an empty one (docs = [], total = 0,
page = 1), sets the error flag and appends an error notification — and
`fetchCollections` does the same with its collections list: data already
on screen is cleared rather than preserved. -/
theorem c10_error_clears_state :
    (∀ (st : DocViewState) (msg : String),
      (applyDocsArrival st (Except.error msg)).documentsResponse.docs = [] ∧
      (applyDocsArrival st (Except.error msg)).documentsResponse.total = 0 ∧
      (applyDocsArrival st (Except.error msg)).documentsResponse.page = 1 ∧
      (applyDocsArrival st (Except.error msg)).error = true ∧
      (applyDocsArrival st (Except.error msg)).notifs =
        st.notifs ++ [(msg, NotificationType.error)]) ∧
    (∀ (parse : String → Option Json)
       (transport : DocRequest → Except String (Option DocsQueryResponse))
       (st : DocViewState) (req : DocRequest),
      (fetchDocumentsModel parse transport st).2 = some req →
      (fetchDocumentsModel parse transport st).1 =
        applyDocsArrival st (transport req)) ∧
    (∀ (transport : ColRequest → Except String PaginatedCollections)
       (st : ColViewState) (msg : String),
      transport (colRequestOf st) = Except.error msg →
      (fetchCollectionsModel transport st).collectionsResponse.collections = [] ∧
      (fetchCollectionsModel transport st).collectionsResponse.total = 0 ∧
      (fetchCollectionsModel transport st).collectionsResponse.page = 1 ∧
      (fetchCollectionsModel transport st).error = true ∧
      (fetchCollectionsModel transport st).notifs =
        st.notifs ++ [(msg, NotificationType.error)]) := by
  refine ⟨?_, ?_, ?_⟩
  · intro st msg
    exact ⟨rfl, rfl, rfl, rfl, rfl⟩
  · intro parse transport st req hsent
    unfold fetchDocumentsModel at hsent ⊢
    set fs := docFilterStep parse st.queryTerm with hfs
    clear_value fs
    cases fs with
    | none => simp [fetchDocumentsAfterFilter] at hsent
    | some filt =>
      simp only [fetchDocumentsAfterFilter, Option.some.injEq] at hsent
      simp only [fetchDocumentsAfterFilter]
      rw [hsent]
  · intro transport st msg herr
    unfold fetchCollectionsModel
    rw [herr]
    exact ⟨rfl, rfl, rfl, rfl, rfl⟩

/-- C10 witness: the clearing behavior evaluated on a view that had data
on screen and a transport that rejects. -/
theorem c10_error_clears_state_witness :
    (applyDocsArrival c5State (Except.error "boom")).documentsResponse.docs =
      [] ∧
    (fetchCollectionsModel (fun _ => Except.error "down")
      { searchTerm := "", currentPage := 1,
        collectionsResponse :=
          { collections := [Json.str "c1"], total := 1, page := 1,
            page_size := 16 },
        error := false, notifs := [] }).collectionsResponse.collections = [] :=
  ⟨(c10_error_clears_state.1 c5State "boom").1,
   (c10_error_clears_state.2.2 (fun _ => Except.error "down")
      { searchTerm := "", currentPage := 1,
        collectionsResponse :=
          { collections := [Json.str "c1"], total := 1, page := 1,
            page_size := 16 },
        error := false, notifs := [] } "down" rfl).1⟩

end Mongodhara
